import Mathlib

/-!
Verification of the quokka provisioning orchestration core.

Shallow embedding of:
- `internal/plugin/registry.go` (plugin registry),
- the plugin capability contract (`Plugin`, `ProvisionRequest`, `ProvisionResult`),
- `internal/projects/service.go` (orchestration service: `Create`, `Get`, `List`,
  `validateCreate`),
- the store's `Create` error translation (Postgres 23505 → `ErrProjectExists`),
- `internal/integration/proxmox/proxmox.go` (`Provision`, `parseResourceID`).

Go errors are modelled by the inductive `GoErr`: `base` is `errors.New`,
`wrap` is `fmt.Errorf` with a `%w` verb (the string is the full rendered
message, the second component the wrapped error), `pgError` is a
`pgconn.PgError` carrying its SQLSTATE code. `errorsIs` follows Go's
`errors.Is` over the unwrap chain; `pgErrCode?` follows `errors.As`
searching for a `*pgconn.PgError`. Distinct sentinel errors in the source
have distinct messages, so modelling `errors.New` values by their message
keeps identity faithful.

Go contexts are modelled by the time remaining until the deadline
(`Ctx.deadline`, `none` = no deadline). `context.WithTimeout(ctx, d)`
yields a child whose remaining time is `min` of the parent's remaining
time and `d`, and which inherits the parent's cancellation — exactly the
`withTimeout` function below (relative-time view of `WithDeadline`).

External collaborators (database, subprocess) enter as explicit function
arguments or as their outcome values, the way the repository's own tests
inject `mockStore` / `mockRegistry` / `mockPlugin`.
-/

/-- Go error values: `errors.New`, `fmt.Errorf("...%w...")`, `pgconn.PgError`. -/
inductive GoErr : Type where
  | base : String → GoErr
  | wrap : String → GoErr → GoErr
  | pgError : String → String → GoErr
deriving DecidableEq, Repr

/-- The `Error()` message of a Go error. -/
def errMessage : GoErr → String
  | .base m => m
  | .wrap m _ => m
  | .pgError _ m => m

/-- Go `errors.Is`: equality, else follow the `Unwrap` chain. -/
def errorsIs : GoErr → GoErr → Bool
  | .wrap m inner, target => (GoErr.wrap m inner = target) || errorsIs inner target
  | e, target => e = target

/-- Go `errors.As` specialised to `*pgconn.PgError`: first `pgError` in the
unwrap chain, returning its SQLSTATE code. -/
def pgErrCode? : GoErr → Option String
  | .pgError code _ => some code
  | .wrap _ inner => pgErrCode? inner
  | .base _ => none

-- Sentinel errors of internal/projects/service.go (lines 16-21).
def ErrProjectNotFound : GoErr := .base "project not found"
def ErrProjectExists : GoErr := .base "project unix name already exists"
def ErrInvalidUnixName : GoErr := .base "invalid unix name format"
def ErrInvalidProjectID : GoErr := .base "invalid project id format"

/-- Sentinel error of internal/plugin/registry.go (line 11). -/
def ErrPluginNotFound : GoErr := .base "plugin not found"

/-- `pgx.ErrNoRows` from the pgx driver. -/
def pgxErrNoRows : GoErr := .base "no rows in result set"

/-- A Go `context.Context`, reduced to the time remaining until its
deadline (`none` when it has no deadline). Cancellation reaching the
context is the deadline running out. -/
structure Ctx where
  deadline : Option Nat
deriving DecidableEq, Repr

/-- `context.WithTimeout(ctx, d)`: the child's remaining time is the
minimum of the parent's remaining time and `d`; cancelling the parent
cancels the child. -/
def withTimeout (ctx : Ctx) (d : Nat) : Ctx :=
  ⟨some (match ctx.deadline with
    | none => d
    | some r => min r d)⟩

/-- `plugin.ProvisionRequest` (plugin contract). The opaque
`map[string]interface` resource hints are modelled as string pairs. -/
structure ProvisionRequest where
  ProjectID : String
  ProjectName : String
  Template : String
  Resources : List (String × String)
deriving DecidableEq, Repr

/-- `plugin.ProvisionResult` (plugin contract). -/
structure ProvisionResult where
  ResourceID : String
  Metadata : List (String × String)
  Status : String
deriving DecidableEq, Repr

/-- `plugin.StatusResult` (plugin contract). -/
structure StatusResult where
  Status : String
  Metadata : List (String × String)
deriving DecidableEq, Repr

/-- An implementation of the `plugin.Plugin` interface: the five contract
methods, each fallible operation returning `Except`/`Option` for
`(value, error)`. -/
structure PluginImpl where
  name : String
  health : Ctx → Option GoErr
  provision : Ctx → ProvisionRequest → Except GoErr ProvisionResult
  status : Ctx → String → Except GoErr StatusResult
  deprovision : Ctx → String → Option GoErr

/-- The registry's internal `map[string]Plugin`, as a lookup function. -/
def RegistryMap : Type := String → Option PluginImpl

/-- `Registry.Register` (registry.go lines 29-40): fail if the name is
taken, otherwise the updated map. The mutex only orders concurrent calls
and has no sequential content. -/
def RegistryRegister (r : RegistryMap) (p : PluginImpl) :
    Except GoErr RegistryMap :=
  match r p.name with
  | some _ => .error (.base ("plugin \"" ++ p.name ++ "\" already registered"))
  | none => .ok (fun n => if n = p.name then some p else r n)

/-- `Registry.Get` (registry.go lines 43-53): `fmt.Errorf("%w: %s",
ErrPluginNotFound, name)` when absent. -/
def RegistryGet (r : RegistryMap) (name : String) : Except GoErr PluginImpl :=
  match r name with
  | some p => .ok p
  | none => .error (.wrap (errMessage ErrPluginNotFound ++ ": " ++ name) ErrPluginNotFound)

/-- The `projects.Project` domain entity (types.go). Timestamps are
modelled as naturals. -/
structure Project where
  ID : String
  Name : String
  UnixName : String
  Description : String
  Active : Bool
  CreatedAt : Nat
  UpdatedAt : Nat
deriving DecidableEq, Repr

/-- `projects.CreateProjectRequest` (types.go). -/
structure CreateProjectRequest where
  Name : String
  UnixName : String
  Description : String
deriving DecidableEq, Repr

/-- Go `len(s)` on a string: the UTF-8 byte length. -/
def goLen (s : String) : Nat := s.utf8ByteSize

/-- Character class `[a-z0-9-]` of `unixNameRegex`. -/
def isUnixNameChar (c : Char) : Bool :=
  ('a' ≤ c && c ≤ 'z') || ('0' ≤ c && c ≤ '9') || c = '-'

/-- `unixNameRegex.MatchString` for the anchored pattern `^[a-z0-9-]+$`:
the string is nonempty and every character is in the class. -/
def unixNameRegexMatch (s : String) : Bool :=
  !s.data.isEmpty && s.data.all isUnixNameChar

/-- `Service.validateCreate` (service.go lines 296-307): name length
3-255, slug length 3-100, then the slug regex; only the regex violation
yields the sentinel `ErrInvalidUnixName`, the length checks build fresh
errors with `errors.New`. -/
def validateCreate (req : CreateProjectRequest) : Option GoErr :=
  if goLen req.Name < 3 ∨ goLen req.Name > 255 then
    some (.base "name must be between 3 and 255 characters")
  else if goLen req.UnixName < 3 ∨ goLen req.UnixName > 100 then
    some (.base "unix_name must be between 3 and 100 characters")
  else if unixNameRegexMatch req.UnixName = false then
    some ErrInvalidUnixName
  else
    none

/-- Calls the service makes on its collaborators, in order. -/
inductive Event : Type where
  | storeCreate : CreateProjectRequest → Event
  | registryGet : String → Event
  | provisionCall : Ctx → ProvisionRequest → Event
deriving DecidableEq, Repr

/-- Outcome of `Service.Create`: the returned `(Project, error)` pair, the
collaborator calls made, and the `log.Warn("provisioning failed",
"project_id", …, "error", …)` entries emitted. -/
structure CreateOutcome where
  result : Except GoErr Project
  events : List Event
  warnLogs : List (String × GoErr)
deriving Repr

/-- `Service.Create` (service.go lines 72-101): validate, persist, then
best-effort provisioning through the registry entry named "proxmox" under
`context.WithTimeout(ctx, 30*time.Second)`; a provisioning error is only
logged (comment GO-004) and the persisted project is returned regardless.
The store and registry collaborators are explicit arguments. -/
def ServiceCreate (store : CreateProjectRequest → Except GoErr Project)
    (registry : String → Except GoErr PluginImpl)
    (ctx : Ctx) (req : CreateProjectRequest) : CreateOutcome :=
  match validateCreate req with
  | some e => ⟨.error e, [], []⟩
  | none =>
    match store req with
    | .error e => ⟨.error e, [.storeCreate req], []⟩
    | .ok project =>
      match registry "proxmox" with
      | .error _ =>
        ⟨.ok project, [.storeCreate req, .registryGet "proxmox"], []⟩
      | .ok proxmoxPlugin =>
        let provCtx := withTimeout ctx 30
        let provReq : ProvisionRequest :=
          ⟨project.ID, project.Name, "", []⟩
        match proxmoxPlugin.provision provCtx provReq with
        | .error e =>
          ⟨.ok project,
           [.storeCreate req, .registryGet "proxmox", .provisionCall provCtx provReq],
           [(project.ID, e)]⟩
        | .ok _ =>
          ⟨.ok project,
           [.storeCreate req, .registryGet "proxmox", .provisionCall provCtx provReq],
           []⟩

/-- `Service.Get` (service.go lines 103-115): pass `ErrInvalidProjectID`
through, translate `pgx.ErrNoRows` to `ErrProjectNotFound`, propagate
every other store error unchanged. -/
def ServiceGet (storeGetByID : String → Except GoErr Project)
    (id : String) : Except GoErr Project :=
  match storeGetByID id with
  | .error e =>
    if errorsIs e ErrInvalidProjectID then .error e
    else if errorsIs e pgxErrNoRows then .error ErrProjectNotFound
    else .error e
  | .ok project => .ok project

/-- `Service.List` (service.go lines 117-122): a non-positive limit is
replaced by the default page size 100. `int32` values are modelled as
integers. -/
def ServiceList (storeList : Int → Int → Except GoErr (List Project))
    (limit offset : Int) : Except GoErr (List Project) :=
  let limit := if limit ≤ 0 then (100 : Int) else limit
  storeList limit offset

/-- Row type of the generated `db.Project` (sqlc): the `pgtype.Text`
description keeps its `Valid` flag, the UUID is its canonical string. -/
structure DbProject where
  ID : String
  Name : String
  UnixName : String
  DescriptionString : String
  DescriptionValid : Bool
  Active : Bool
  CreatedAt : Nat
  UpdatedAt : Nat
deriving DecidableEq, Repr

/-- `mapToDomainProject` (store): reads `row.Description.String`
unconditionally. -/
def mapToDomainProject (row : DbProject) : Project :=
  ⟨row.ID, row.Name, row.UnixName, row.DescriptionString, row.Active,
   row.CreatedAt, row.UpdatedAt⟩

/-- `Store.Create` (store, projects package): given the outcome of the
generated `CreateProject` query, translate a `pgconn.PgError` with
SQLSTATE 23505 (unique violation) to `ErrProjectExists`, pass any other
error through, and map a successful row to the domain entity. -/
def StoreCreate (dbResult : Except GoErr DbProject) : Except GoErr Project :=
  match dbResult with
  | .error e =>
    if pgErrCode? e = some "23505" then .error ErrProjectExists
    else .error e
  | .ok row => .ok (mapToDomainProject row)

/-- Go `strings.Split(s, "\x5cn")` on the character list: accumulator
holds the current line reversed. -/
def splitLinesAux : List Char → List Char → List (List Char)
  | [], acc => [acc.reverse]
  | c :: cs, acc =>
    if c = '\n' then acc.reverse :: splitLinesAux cs []
    else splitLinesAux cs (c :: acc)

/-- The lines of a CLI output string, as `strings.Split(output, "\x5cn")`. -/
def splitLines (s : String) : List (List Char) :=
  splitLinesAux s.data []

/-- Go `unicode.IsSpace`: the Unicode White_Space property. -/
def goIsSpace (c : Char) : Bool :=
  (9 ≤ c.val && c.val ≤ 13) || c.val = 32 || c.val = 133 || c.val = 160 ||
  c.val = 0x1680 || (0x2000 ≤ c.val && c.val ≤ 0x200a) ||
  c.val = 0x2028 || c.val = 0x2029 || c.val = 0x202f || c.val = 0x205f ||
  c.val = 0x3000

/-- Go `strings.TrimSpace` on a character list. -/
def trimSpace (l : List Char) : List Char :=
  ((l.dropWhile goIsSpace).reverse.dropWhile goIsSpace).reverse

/-- `strings.SplitN(l, ":", 2)[1]`: everything after the first colon.
Callers only reach this under the `"id:"` line guard, which guarantees a
colon is present (Go would panic on the index otherwise). -/
def afterFirstColon : List Char → List Char
  | [] => []
  | c :: cs => if c = ':' then cs else afterFirstColon cs

/-- Lowercased `"id:"` line marker scanned for by the adapter. -/
def idMarker : List Char := ['i', 'd', ':']

/-- Line predicate of `parseResourceID`:
`strings.HasPrefix(strings.ToLower(l), "id:")`. `Char.toLower` matches
Go's per-rune lowering on the ASCII range the marker lives in. -/
def lineHasIdMarker (l : List Char) : Bool :=
  idMarker.isPrefixOf (l.map Char.toLower)

/-- `Plugin.parseResourceID` (proxmox.go lines 112-122): first line
marked `"id:"` (case-insensitively) yields the trimmed text after its
first colon; otherwise the empty string. -/
def parseResourceID (output : String) : String :=
  match (splitLines output).find? lineHasIdMarker with
  | some l => ⟨trimSpace (afterFirstColon l)⟩
  | none => ""

/-- `Plugin.Provision` (proxmox.go lines 47-82), with the subprocess
outcome supplied as data: `output` is `CombinedOutput`'s combined text and
`cmdErr` its error, if any. On subprocess success the parsed resource id
must be nonempty or an error is returned; a success carries the id, the
status "provisioned" and the stub metadata. -/
def PluginProvision (output : String) (cmdErr : Option GoErr)
    (_req : ProvisionRequest) : Except GoErr ProvisionResult :=
  match cmdErr with
  | some e =>
    .error (.wrap ("forge-ovh-cli provision failed: " ++ errMessage e ++
      ", output: " ++ output) e)
  | none =>
    let resourceID := parseResourceID output
    if resourceID = "" then
      .error (.base "unable to parse resource id from cli output")
    else
      .ok ⟨resourceID, [("cli_output", output), ("node", "proxmox-01")], "provisioned"⟩

-- Concrete fixtures used by witnesses and counterexamples, mirroring the
-- repository's own test doubles (mockStore / mockRegistry / mockPlugin).

/-- A caller context with no deadline. -/
def ctx0 : Ctx := ⟨none⟩

/-- The persisted project the repository's tests use. -/
def projA : Project := ⟨"p-123", "Alpha", "alpha", "", true, 0, 0⟩

/-- A valid create request. -/
def reqA : CreateProjectRequest := ⟨"Alpha", "alpha", ""⟩

/-- A store whose `Create` always persists `projA`. -/
def storeOkA : CreateProjectRequest → Except GoErr Project := fun _ => .ok projA

/-- The empty registry map. -/
def regMapEmpty : RegistryMap := fun _ => none

/-- Registry lookups over the empty registry. -/
def registryEmpty : String → Except GoErr PluginImpl := fun n => RegistryGet regMapEmpty n

/-- A proxmox plugin whose `Provision` succeeds. -/
def plugOk : PluginImpl :=
  ⟨"proxmox", fun _ => none, fun _ _ => .ok ⟨"r-1", [], "ok"⟩,
   fun _ _ => .ok ⟨"running", []⟩, fun _ _ => none⟩

/-- A proxmox plugin whose `Provision` fails. -/
def plugFail : PluginImpl :=
  ⟨"proxmox", fun _ => none, fun _ _ => .error (.base "provision boom"),
   fun _ _ => .ok ⟨"running", []⟩, fun _ _ => none⟩

/-- Registry lookups over a registry holding the failing proxmox plugin. -/
def registryWithFail : String → Except GoErr PluginImpl :=
  fun n => if n = "proxmox" then .ok plugFail else registryEmpty n

/-- Registry lookups over a registry holding the succeeding proxmox plugin. -/
def registryWithOk : String → Except GoErr PluginImpl :=
  fun n => if n = "proxmox" then .ok plugOk else registryEmpty n

/-- The registry map after registering `plugOk` into the empty registry. -/
def regMapAfterOk : RegistryMap := fun n => if n = "proxmox" then some plugOk else none

/-- A store `List` double. -/
def storeList0 : Int → Int → Except GoErr (List Project) := fun _ _ => .ok []

/-- A store `GetByID` double returning the malformed-identifier error. -/
def storeInvalidId : String → Except GoErr Project := fun _ => .error ErrInvalidProjectID

/-- A provisioning request fixture for the proxmox adapter. -/
def reqP : ProvisionRequest := ⟨"p-1", "Alpha", "", []⟩

-- Facts about validateCreate shared by the Create theorems.

/-- With the name length in range, a slug length outside [3,100] yields the
plain length error built by `errors.New`, not `ErrInvalidUnixName`. -/
theorem validateCreate_slug_len_err (req : CreateProjectRequest)
    (hn3 : 3 ≤ goLen req.Name) (hn255 : goLen req.Name ≤ 255)
    (h : goLen req.UnixName < 3 ∨ 100 < goLen req.UnixName) :
    validateCreate req = some (.base "unix_name must be between 3 and 100 characters") := by
  unfold validateCreate
  split_ifs with h1 _h2 _h3 <;> first | rfl | omega

/-- With both lengths in range, a slug failing the regex yields the
sentinel `ErrInvalidUnixName`. -/
theorem validateCreate_invalid_unix (req : CreateProjectRequest)
    (hn3 : 3 ≤ goLen req.Name) (hn255 : goLen req.Name ≤ 255)
    (hu3 : 3 ≤ goLen req.UnixName) (hu100 : goLen req.UnixName ≤ 100)
    (h : unixNameRegexMatch req.UnixName = false) :
    validateCreate req = some ErrInvalidUnixName := by
  unfold validateCreate
  split_ifs with h1 h2 _h3 <;> first | rfl | omega

/-- Any slug violation (length or regex) makes validation fail. -/
theorem validateCreate_some_of_invalid_slug (req : CreateProjectRequest)
    (h : goLen req.UnixName < 3 ∨ 100 < goLen req.UnixName ∨
         unixNameRegexMatch req.UnixName = false) :
    ∃ e, validateCreate req = some e := by
  unfold validateCreate
  split_ifs with h1 h2 h3
  · exact ⟨_, rfl⟩
  · exact ⟨_, rfl⟩
  · exact ⟨_, rfl⟩
  · rcases h with h | h | h
    · omega
    · omega
    · exact absurd h h3

/-- C1: for a request that validates and persists, a failing `Provision`
leaves `Create`'s return value the persisted project with a nil error; the
failure only lands in the warn log (with the project id and the error) and
no rollback call exists. -/
theorem create_swallows_provision_error
    (store : CreateProjectRequest → Except GoErr Project)
    (registry : String → Except GoErr PluginImpl)
    (ctx : Ctx) (req : CreateProjectRequest) (project : Project)
    (plug : PluginImpl) (e : GoErr)
    (hv : validateCreate req = none)
    (hs : store req = .ok project)
    (hr : registry "proxmox" = .ok plug)
    (hp : plug.provision (withTimeout ctx 30) ⟨project.ID, project.Name, "", []⟩ =
      .error e) :
    (ServiceCreate store registry ctx req).result = .ok project ∧
    (ServiceCreate store registry ctx req).warnLogs = [(project.ID, e)] := by
  constructor <;> simp [ServiceCreate, hv, hs, hr, hp]

/-- C1 witness at concrete doubles: a failing plugin does not disturb the
returned project. -/
theorem create_swallows_provision_error_witness :
    (ServiceCreate storeOkA registryWithFail ctx0 reqA).result = .ok projA ∧
    (ServiceCreate storeOkA registryWithFail ctx0 reqA).warnLogs =
      [("p-123", GoErr.base "provision boom")] :=
  create_swallows_provision_error storeOkA registryWithFail ctx0 reqA projA
    plugFail (.base "provision boom") (by decide) rfl rfl rfl

/-- C2 counterexample: the request `(name "Valid Name", slug "ab")` has a
slug of length 2, outside [3,100]; `Create` rejects it, but with the plain
length error, not the sentinel `ErrInvalidUnixName` the claim names. -/
theorem create_slug_length_counterexample :
    (ServiceCreate storeOkA registryEmpty ctx0 ⟨"Valid Name", "ab", ""⟩).result =
      Except.error (.base "unix_name must be between 3 and 100 characters") ∧
    GoErr.base "unix_name must be between 3 and 100 characters" ≠ ErrInvalidUnixName :=
  ⟨rfl, by decide⟩

/-- C2 (amended): any slug violation makes `Create` fail before the store
is called (no persistence event); the error is the sentinel
`ErrInvalidUnixName` exactly when the lengths are in range and the regex
fails, while a slug length outside [3,100] yields the plain length
error. -/
theorem create_invalid_slug_never_persists
    (store : CreateProjectRequest → Except GoErr Project)
    (registry : String → Except GoErr PluginImpl)
    (ctx : Ctx) (req : CreateProjectRequest)
    (h : goLen req.UnixName < 3 ∨ 100 < goLen req.UnixName ∨
         unixNameRegexMatch req.UnixName = false) :
    (∃ e, (ServiceCreate store registry ctx req).result = Except.error e) ∧
    (ServiceCreate store registry ctx req).events = [] ∧
    (3 ≤ goLen req.Name → goLen req.Name ≤ 255 →
      (goLen req.UnixName < 3 ∨ 100 < goLen req.UnixName) →
      (ServiceCreate store registry ctx req).result =
        Except.error (.base "unix_name must be between 3 and 100 characters")) ∧
    (3 ≤ goLen req.Name → goLen req.Name ≤ 255 →
      3 ≤ goLen req.UnixName → goLen req.UnixName ≤ 100 →
      (ServiceCreate store registry ctx req).result = Except.error ErrInvalidUnixName) := by
  obtain ⟨e0, he0⟩ := validateCreate_some_of_invalid_slug req h
  refine ⟨⟨e0, by simp [ServiceCreate, he0]⟩, by simp [ServiceCreate, he0], ?_, ?_⟩
  · intro hn3 hn255 hsl
    have hval := validateCreate_slug_len_err req hn3 hn255 hsl
    simp [ServiceCreate, hval]
  · intro hn3 hn255 hu3 hu100
    have hregex : unixNameRegexMatch req.UnixName = false := by
      rcases h with h | h | h
      · omega
      · omega
      · exact h
    have hval := validateCreate_invalid_unix req hn3 hn255 hu3 hu100 hregex
    simp [ServiceCreate, hval]

/-- C2 witness: the length-violating slug "ab" is rejected with no store
event, and the regex-violating slug "bad_name" gets `ErrInvalidUnixName`. -/
theorem create_invalid_slug_never_persists_witness :
    ((∃ e, (ServiceCreate storeOkA registryEmpty ctx0 ⟨"Valid Name", "ab", ""⟩).result =
        Except.error e) ∧
     (ServiceCreate storeOkA registryEmpty ctx0 ⟨"Valid Name", "ab", ""⟩).events = []) ∧
    (ServiceCreate storeOkA registryEmpty ctx0 ⟨"Valid Name", "bad_name", ""⟩).result =
      Except.error ErrInvalidUnixName :=
  ⟨⟨(create_invalid_slug_never_persists storeOkA registryEmpty ctx0 _ (by decide)).1,
    (create_invalid_slug_never_persists storeOkA registryEmpty ctx0 _ (by decide)).2.1⟩,
   (create_invalid_slug_never_persists storeOkA registryEmpty ctx0
      ⟨"Valid Name", "bad_name", ""⟩ (by decide)).2.2.2
     (by decide) (by decide) (by decide) (by decide)⟩

/-- C3: when the store's `Create` hits a Postgres unique violation
(SQLSTATE 23505), the service returns `ErrProjectExists` and neither
consults the registry nor invokes `Provision`: the only collaborator call
is the store's `Create`. -/
theorem create_unique_violation_fails_before_provisioning
    (registry : String → Except GoErr PluginImpl) (ctx : Ctx)
    (req : CreateProjectRequest) (e : GoErr)
    (hv : validateCreate req = none)
    (hpg : pgErrCode? e = some "23505") :
    (ServiceCreate (fun _ => StoreCreate (Except.error e)) registry ctx req).result =
      Except.error ErrProjectExists ∧
    (ServiceCreate (fun _ => StoreCreate (Except.error e)) registry ctx req).events =
      [Event.storeCreate req] := by
  have hst : StoreCreate (Except.error e) = Except.error ErrProjectExists := by
    simp [StoreCreate, hpg]
  constructor <;> simp [ServiceCreate, hv, hst]

/-- C3 witness at a concrete 23505 driver error. -/
theorem create_unique_violation_witness :
    (ServiceCreate (fun _ => StoreCreate (Except.error (.pgError "23505" "duplicate key")))
        registryWithOk ctx0 reqA).result = Except.error ErrProjectExists ∧
    (ServiceCreate (fun _ => StoreCreate (Except.error (.pgError "23505" "duplicate key")))
        registryWithOk ctx0 reqA).events = [Event.storeCreate reqA] :=
  create_unique_violation_fails_before_provisioning registryWithOk ctx0 reqA
    (.pgError "23505" "duplicate key") (by decide) rfl

/-- C4 counterexample: with a caller context allowing only 10 time-units,
the provisioning call is made under a context whose deadline is 10 — the
caller's signal, inherited through `context.WithTimeout` — not the fixed,
caller-independent 30-unit deadline the claim asserts. -/
theorem create_provision_deadline_counterexample :
    (ServiceCreate storeOkA registryWithOk ⟨some 10⟩ reqA).events =
      [Event.storeCreate reqA, Event.registryGet "proxmox",
       Event.provisionCall ⟨some 10⟩ ⟨"p-123", "Alpha", "", []⟩] ∧
    Ctx.mk (some 10) ≠ Ctx.mk (some 30) :=
  ⟨rfl, by decide⟩

/-- C4 (amended): when a provider is registered under "proxmox",
`Provision` runs under `context.WithTimeout(ctx, 30)`: its deadline never
exceeds 30 units (the cap holds even if the caller allows more time), but
it is the minimum of the caller's remaining time and 30, so caller
cancellation propagates into the provisioning call, which runs
synchronously, not fire-and-forget. -/
theorem create_provision_deadline_caps_and_inherits
    (store : CreateProjectRequest → Except GoErr Project)
    (registry : String → Except GoErr PluginImpl)
    (ctx : Ctx) (req : CreateProjectRequest) (project : Project)
    (plug : PluginImpl)
    (hv : validateCreate req = none)
    (hs : store req = .ok project)
    (hr : registry "proxmox" = .ok plug) :
    (ServiceCreate store registry ctx req).events =
      [Event.storeCreate req, Event.registryGet "proxmox",
       Event.provisionCall (withTimeout ctx 30) ⟨project.ID, project.Name, "", []⟩] ∧
    (∀ d, (withTimeout ctx 30).deadline = some d → d ≤ 30) ∧
    (∀ r, ctx.deadline = some r → (withTimeout ctx 30).deadline = some (min r 30)) := by
  refine ⟨?_, ?_, ?_⟩
  · cases hp : plug.provision (withTimeout ctx 30) ⟨project.ID, project.Name, "", []⟩ <;>
      simp [ServiceCreate, hv, hs, hr, hp]
  · intro d hd
    cases hctx : ctx.deadline with
    | none => simp [withTimeout, hctx] at hd; omega
    | some r => simp [withTimeout, hctx] at hd; omega
  · intro r hr'
    simp [withTimeout, hr']

/-- C4 witness: a caller allowing 10 units yields a provisioning deadline
of `min 10 30 = 10`, within the 30-unit cap. -/
theorem create_provision_deadline_witness :
    (ServiceCreate storeOkA registryWithOk ⟨some 10⟩ reqA).events =
      [Event.storeCreate reqA, Event.registryGet "proxmox",
       Event.provisionCall (withTimeout ⟨some 10⟩ 30) ⟨"p-123", "Alpha", "", []⟩] ∧
    (withTimeout ⟨some 10⟩ 30).deadline = some (min 10 30) :=
  ⟨(create_provision_deadline_caps_and_inherits storeOkA registryWithOk ⟨some 10⟩ reqA
      projA plugOk (by decide) rfl rfl).1,
   (create_provision_deadline_caps_and_inherits storeOkA registryWithOk ⟨some 10⟩ reqA
      projA plugOk (by decide) rfl rfl).2.2 10 rfl⟩

/-- C5: with no registry entry under "proxmox", `Create` returns the
persisted project with a nil error, consults the registry once, performs
no provisioning call and logs nothing. -/
theorem create_succeeds_without_provider
    (store : CreateProjectRequest → Except GoErr Project)
    (registry : String → Except GoErr PluginImpl)
    (ctx : Ctx) (req : CreateProjectRequest) (project : Project) (e : GoErr)
    (hv : validateCreate req = none)
    (hs : store req = .ok project)
    (hr : registry "proxmox" = .error e) :
    (ServiceCreate store registry ctx req).result = .ok project ∧
    (ServiceCreate store registry ctx req).events =
      [Event.storeCreate req, Event.registryGet "proxmox"] ∧
    (ServiceCreate store registry ctx req).warnLogs = [] := by
  refine ⟨?_, ?_, ?_⟩ <;> simp [ServiceCreate, hv, hs, hr]

/-- C5 witness over the empty registry. -/
theorem create_succeeds_without_provider_witness :
    (ServiceCreate storeOkA registryEmpty ctx0 reqA).result = .ok projA ∧
    (ServiceCreate storeOkA registryEmpty ctx0 reqA).events =
      [Event.storeCreate reqA, Event.registryGet "proxmox"] ∧
    (ServiceCreate storeOkA registryEmpty ctx0 reqA).warnLogs = [] :=
  create_succeeds_without_provider storeOkA registryEmpty ctx0 reqA projA
    (.wrap "plugin not found: proxmox" ErrPluginNotFound) (by decide) rfl rfl

/-- C6: `Service.Get` passes the store's malformed-identifier error
through unchanged, translates the driver's row-not-found signal into
`ErrProjectNotFound`, and propagates every other store error unmodified. -/
theorem get_error_translation
    (store : String → Except GoErr Project) (id : String) (e : GoErr)
    (hs : store id = .error e) :
    (errorsIs e ErrInvalidProjectID = true → ServiceGet store id = .error e) ∧
    (errorsIs e ErrInvalidProjectID = false → errorsIs e pgxErrNoRows = true →
      ServiceGet store id = .error ErrProjectNotFound) ∧
    (errorsIs e ErrInvalidProjectID = false → errorsIs e pgxErrNoRows = false →
      ServiceGet store id = .error e) := by
  refine ⟨?_, ?_, ?_⟩ <;> intro h1 <;> try intro h2
  all_goals simp [ServiceGet, hs, h1]
  all_goals simp [h2]

/-- C6 witness: the malformed-identifier error comes back unchanged. -/
theorem get_error_translation_witness :
    ServiceGet storeInvalidId "bad-id" = .error ErrInvalidProjectID :=
  (get_error_translation storeInvalidId "bad-id" ErrInvalidProjectID rfl).1 (by decide)

/-- C7: after a first successful registration, a second `Register` under
the same name fails with the duplicate-name error and the registry still
returns the first implementation for that name. -/
theorem register_duplicate_rejected
    (r r1 : RegistryMap) (p1 p2 : PluginImpl)
    (hname : p2.name = p1.name)
    (h1 : RegistryRegister r p1 = .ok r1) :
    RegistryRegister r1 p2 =
      .error (.base ("plugin \"" ++ p2.name ++ "\" already registered")) ∧
    RegistryGet r1 p1.name = .ok p1 := by
  unfold RegistryRegister at h1
  cases hc : r p1.name with
  | some q => rw [hc] at h1; exact absurd h1 (by simp)
  | none =>
    rw [hc] at h1
    have hr1 : r1 = fun n => if n = p1.name then some p1 else r n := by
      cases h1; rfl
    have hval : r1 p1.name = some p1 := by rw [hr1]; simp
    constructor
    · unfold RegistryRegister
      rw [hname, hval]
    · unfold RegistryGet
      rw [hval]

/-- C7 witness: registering a second "proxmox" plugin into a registry
already holding one fails and leaves the first lookup result intact. -/
theorem register_duplicate_rejected_witness :
    RegistryRegister regMapAfterOk plugFail =
      .error (.base ("plugin \"" ++ plugFail.name ++ "\" already registered")) ∧
    RegistryGet regMapAfterOk plugOk.name = .ok plugOk :=
  register_duplicate_rejected regMapEmpty regMapAfterOk plugOk plugFail rfl rfl

/-- C8: `Registry.Get` on an unregistered name fails with an error that
`errors.Is`-matches `ErrPluginNotFound` and whose message contains the
requested name. -/
theorem registry_get_not_found
    (r : RegistryMap) (name : String) (h : r name = none) :
    ∃ e, RegistryGet r name = .error e ∧
      errorsIs e ErrPluginNotFound = true ∧
      ∃ a b, errMessage e = a ++ name ++ b := by
  refine ⟨.wrap (errMessage ErrPluginNotFound ++ ": " ++ name) ErrPluginNotFound,
    ?_, ?_, "plugin not found: ", "", ?_⟩
  · unfold RegistryGet
    rw [h]
  · simp [errorsIs, ErrPluginNotFound]
  · simp [errMessage, ErrPluginNotFound]

/-- C8 witness over the empty registry. -/
theorem registry_get_not_found_witness :
    ∃ e, RegistryGet regMapEmpty "proxmox" = .error e ∧
      errorsIs e ErrPluginNotFound = true ∧
      ∃ a b, errMessage e = a ++ "proxmox" ++ b :=
  registry_get_not_found regMapEmpty "proxmox" rfl

/-- C9: `Service.List` replaces a non-positive limit by the default page
size 100 and passes a positive limit through unchanged. -/
theorem list_default_page_size
    (storeList : Int → Int → Except GoErr (List Project)) (limit offset : Int) :
    (limit ≤ 0 → ServiceList storeList limit offset = storeList 100 offset) ∧
    (0 < limit → ServiceList storeList limit offset = storeList limit offset) := by
  constructor <;> intro h
  · simp [ServiceList, h]
  · simp [ServiceList, not_le.mpr h]

/-- C9 witness at limits -5 and 7. -/
theorem list_default_page_size_witness :
    ServiceList storeList0 (-5) 0 = storeList0 100 0 ∧
    ServiceList storeList0 7 0 = storeList0 7 0 :=
  ⟨(list_default_page_size storeList0 (-5) 0).1 (by decide),
   (list_default_page_size storeList0 7 0).2 (by decide)⟩

/-- C10: with the subprocess exiting successfully, if no output line
starts (case-insensitively) with "id:", the proxmox `Provision` returns an
error; and every successful `ProvisionResult` it returns carries a
nonempty `ResourceID`. -/
theorem provision_requires_id_line :
    (∀ (output : String) (req : ProvisionRequest),
      (∀ l ∈ splitLines output, lineHasIdMarker l = false) →
      ∃ e, PluginProvision output none req = .error e) ∧
    (∀ (output : String) (cmdErr : Option GoErr) (req : ProvisionRequest)
      (res : ProvisionResult),
      PluginProvision output cmdErr req = .ok res → res.ResourceID ≠ "") := by
  constructor
  · intro output req h
    have hfind : (splitLines output).find? lineHasIdMarker = none := by
      rw [List.find?_eq_none]
      intro l hl
      simp [h l hl]
    have hparse : parseResourceID output = "" := by
      unfold parseResourceID
      rw [hfind]
    refine ⟨.base "unable to parse resource id from cli output", ?_⟩
    simp [PluginProvision, hparse]
  · intro output cmdErr req res hok
    cases cmdErr with
    | some e => exact absurd hok (by simp [PluginProvision])
    | none =>
      unfold PluginProvision at hok
      by_cases hid : parseResourceID output = ""
      · rw [if_pos hid] at hok
        exact absurd hok (by simp)
      · rw [if_neg hid] at hok
        cases hok
        simpa using hid

/-- C10 witness: the idless output "no id here" makes `Provision` fail,
and the output "ok\nID: 321\ndone" yields a result whose `ResourceID`
"321" is nonempty. -/
theorem provision_requires_id_line_witness :
    (∃ e, PluginProvision "no id here" none reqP = .error e) ∧
    ("321" : String) ≠ "" :=
  ⟨provision_requires_id_line.1 "no id here" reqP (by decide),
   provision_requires_id_line.2 "ok\nID: 321\ndone" none reqP
     ⟨"321", [("cli_output", "ok\nID: 321\ndone"), ("node", "proxmox-01")], "provisioned"⟩
     (by rfl)⟩
